import Mathlib

/-!
# Shader binary cache of the GL engine (`tvgGlShaderCache.cpp`)

A shallow embedding of `GlShaderCache::hashString`, `GlShaderCache::getCachePath`,
`GlShaderCache::read` and `GlShaderCache::write`, and theorems about them.

Modelling conventions

* A byte is a `Fin 256`.  A C string is the list of bytes found at the pointer; the list's
  end stands for the terminating NUL, and a zero byte inside the list terminates the string
  early, exactly as the C loops and `%s` do.
* Plain `char` is a signed 8-bit type on the targets of this file (the cache lives under
  `$HOME/Library/Caches`), so `static_cast<uint32_t>(*str)` sign-extends.
* `uint32_t` values are `Nat` reduced `% 2 ^ 32` where the C arithmetic can wrap; `GLint` and
  `GLsizei` values are `Int`.
* The file system is a map from paths to file contents plus a set of directories.  Opening
  a file for reading succeeds exactly when the map holds a file at that path, and a read is
  short exactly when the stored bytes run out.
* Everything the code cannot decide itself is a field of `Env`: the `HOME` value, the
  outcome of every `malloc`, `mkdir`, `fopen(.., "wb")` and `fwrite`, and the answers of the
  graphics driver.
* Every function returns its result together with the file system after the call and the
  trace of the allocator, file and driver calls it made.
-/

namespace GlShaderCache

/-! ## Bytes, strings and machine words -/

abbrev Byte := Fin 256

abbrev CStr := List Byte

abbrev Path := List Byte

/-- The bytes of an ASCII string literal of the source. -/
def ascii (s : String) : CStr := s.toList.map (fun c => Fin.ofNat c.toNat)

/-- The C string stored in a byte sequence: everything before the first NUL. -/
def cstr (s : CStr) : CStr := s.takeWhile (fun b => b.val != 0)

/-- The conversion `static_cast<uint32_t>(c)` of a plain (signed) `char`: bytes
`0x80..0xFF` are negative and sign-extend to `0xFFFFFF80..0xFFFFFFFF`. -/
def charToU32 (c : Byte) : Nat :=
  if c.val < 128 then c.val else c.val + 4294967040

/-- The loop of `hashString`, `while (*str) { hash ^= ...; hash *= 16777619u; }`. -/
def hashLoop (hash : Nat) : CStr → Nat
  | [] => hash
  | c :: str =>
    if c.val = 0 then hash
    else hashLoop (((hash ^^^ charToU32 c) * 16777619) % 2 ^ 32) str

/-- The function `GlShaderCache::hashString`. -/
def hashString (str : CStr) : Nat := hashLoop 2166136261 str

/-- The standard 32-bit FNV-1a hash as the specification words it: start from the offset
basis, and for each byte XOR the byte value (0..255) in, then multiply by the prime
modulo `2 ^ 32`. -/
def fnv1a (text : List Byte) : Nat :=
  text.foldl (fun acc b => ((acc ^^^ b.val) * 16777619) % 2 ^ 32) 2166136261

/-- The value `vertHash ^ (fragHash << 1)` computed in `getCachePath`. -/
def combinedHash (vertSrc fragSrc : CStr) : Nat :=
  hashString vertSrc ^^^ ((hashString fragSrc <<< 1) % 2 ^ 32)

/-- The conversion `%08x` of `printf`: the lowercase hexadecimal digits of the value,
left-padded with `0` to a width of eight. -/
def fmt08x (n : Nat) : CStr :=
  let digits : CStr := (Nat.toDigits 16 n).map (fun c => Fin.ofNat c.toNat)
  List.replicate (8 - digits.length) 48 ++ digits

/-- The lowercase hexadecimal digit of a value below sixteen, as an ASCII byte. -/
def lowerHexDigit (d : Nat) : Byte :=
  if d < 10 then Fin.ofNat (48 + d) else Fin.ofNat (87 + d)

/-- The `k`-digit lowercase hexadecimal rendering of a number, most significant digit
first, as the specification words it (`k = 8` for the name of a cache file). -/
def hexDigits : Nat → Nat → CStr
  | 0, _ => []
  | k + 1, n => hexDigits k (n / 16) ++ [lowerHexDigit (n % 16)]

/-- The result of `snprintf(buf, 512, ...)`: at most 511 bytes of the formatted text. -/
def snprintf512 (formatted : CStr) : CStr := formatted.take 511

/-- The four bytes of a 32-bit word in host (little-endian) order. -/
def encode32 (n : Nat) : List Byte :=
  [Fin.ofNat n, Fin.ofNat (n / 256), Fin.ofNat (n / 65536), Fin.ofNat (n / 16777216)]

/-- The four bytes of a `GLsizei` (two's complement). -/
def encodeInt32 (i : Int) : List Byte := encode32 (i % 4294967296).toNat

/-- The word stored in a little-endian byte sequence. -/
def decodeLE : List Byte → Nat
  | [] => 0
  | b :: bs => b.val + 256 * decodeLE bs

/-- The signed reading of a 32-bit word. -/
def toInt32 (n : Nat) : Int :=
  if n < 2147483648 then (n : Int) else (n : Int) - 4294967296

/-! ## File system, driver and environment -/

structure FileSystem where
  files : Path → Option (List Byte)
  dirs : Path → Bool

/-- The call `stat(path, &st) == -1`: nothing exists at the path. -/
def FileSystem.statFails (fs : FileSystem) (path : Path) : Bool :=
  !fs.dirs path && (fs.files path).isNone

/-- The call `mkdir(path, 0755)`, whose result the code ignores: the directory exists
afterwards when the call succeeded. -/
def FileSystem.mkdir (fs : FileSystem) (ok : Bool) (path : Path) : FileSystem :=
  if ok then { fs with dirs := fun p => if p = path then true else fs.dirs p } else fs

/-- The file left at `path` by `fopen(path, "wb")`, the writes and `fclose`. -/
def FileSystem.store (fs : FileSystem) (path : Path) (content : List Byte) : FileSystem :=
  { fs with files := fun p => if p = path then some content else fs.files p }

/-- What `glGetProgramBinary` leaves in its out-parameters and in the buffer. -/
structure ProgramBinary where
  length : Int
  binaryFormat : Nat
  binary : List Byte

structure Driver where
  /-- The answer to `glGetIntegerv(GL_NUM_PROGRAM_BINARY_FORMATS, ..)`. -/
  numProgramBinaryFormats : Int
  /-- The answer to `glGetProgramiv(program, GL_PROGRAM_BINARY_LENGTH, ..)`. -/
  programBinaryLength : Nat → Int
  /-- The answer to `glGetProgramBinary(program, bufSize, ..)`. -/
  getProgramBinary : Nat → Int → ProgramBinary
  /-- The handle returned by `glCreateProgram()`. -/
  createProgram : Nat
  /-- The answer to `glGetProgramiv(program, GL_LINK_STATUS, ..)` after
  `glProgramBinary(program, binaryFormat, binary, length)`. -/
  linkStatus : Nat → Nat → List Byte → Int → Int

structure Env where
  /-- The value of `getenv("HOME")`. -/
  home : Option CStr
  driver : Driver
  mallocCacheDir : Bool
  mallocThorvgDir : Bool
  mallocCachePath : Bool
  mallocBinaryData : Bool
  mkdirThorvg : Bool
  mkdirShaders : Bool
  /-- Whether `fopen(cachePath, "wb")` succeeds. -/
  fopenWrite : Bool
  /-- How many bytes of the format tag reach the file. -/
  fwriteFormat : Nat
  /-- How many bytes of the length field reach the file. -/
  fwriteLength : Nat
  /-- How many payload bytes the last `fwrite` may write at most. -/
  fwritePayload : Nat

inductive Buffer where
  | cacheDir
  | thorvgDir
  | cachePath
  | binaryData
  deriving DecidableEq, Repr

inductive Event where
  | malloc (buffer : Buffer)
  | free (buffer : Buffer)
  | fopen (path : Path)
  | fclose (path : Path)
  | stat (path : Path)
  | mkdir (path : Path)
  | glGetIntegerv
  | glGetProgramiv (program : Nat)
  | glGetProgramBinary (program : Nat) (bufSize : Int)
  | glCreateProgram
  | glProgramBinary (program : Nat) (binaryFormat : Nat) (binary : List Byte) (length : Int)
  | glDeleteProgram (program : Nat)
  deriving DecidableEq

/-- Whether an event is a call into the graphics driver. -/
def Event.isDriverCall : Event → Bool
  | .glGetIntegerv => true
  | .glGetProgramiv _ => true
  | .glGetProgramBinary _ _ => true
  | .glCreateProgram => true
  | .glProgramBinary _ _ _ _ => true
  | .glDeleteProgram _ => true
  | _ => false

/-- The result of a call, the file system after it, and the calls it made. -/
structure Outcome (α : Type) where
  result : α
  fs : FileSystem
  trace : List Event

/-! ## The cache -/

/-- The text `"%s/Library/Caches/thorvg/shaders"` formatted into `cacheDir`. -/
def cacheDirOf (home : CStr) : Path :=
  snprintf512 (cstr home ++ ascii "/Library/Caches/thorvg/shaders")

/-- The text `"%s/Library/Caches/thorvg"` formatted into `thorvgDir`. -/
def thorvgDirOf (home : CStr) : Path :=
  snprintf512 (cstr home ++ ascii "/Library/Caches/thorvg")

/-- The text `"%s/shader_%08x.bin"` formatted into `cachePath`. -/
def cachePathOf (home vertSrc fragSrc : CStr) : Path :=
  snprintf512 (cacheDirOf home ++ ascii "/shader_" ++ fmt08x (combinedHash vertSrc fragSrc)
    ++ ascii ".bin")

/-- The function `GlShaderCache::getCachePath` (the branch compiled when `__EMSCRIPTEN__`
is not defined). -/
def getCachePath (env : Env) (fs : FileSystem) (vertSrc fragSrc : CStr) :
    Outcome (Option Path) :=
  match env.home with
  | none => ⟨none, fs, []⟩
  | some home =>
    if env.mallocCacheDir = false then ⟨none, fs, []⟩
    else
      let cacheDir := cacheDirOf home
      if fs.statFails cacheDir = true then
        if env.mallocThorvgDir = false then
          ⟨none, fs, [.malloc .cacheDir, .stat cacheDir, .free .cacheDir]⟩
        else
          let thorvgDir := thorvgDirOf home
          let fs' := (fs.mkdir env.mkdirThorvg thorvgDir).mkdir env.mkdirShaders cacheDir
          if env.mallocCachePath = false then
            ⟨none, fs', [.malloc .cacheDir, .stat cacheDir, .malloc .thorvgDir,
              .mkdir thorvgDir, .free .thorvgDir, .mkdir cacheDir, .free .cacheDir]⟩
          else
            ⟨some (cachePathOf home vertSrc fragSrc), fs',
              [.malloc .cacheDir, .stat cacheDir, .malloc .thorvgDir, .mkdir thorvgDir,
                .free .thorvgDir, .mkdir cacheDir, .malloc .cachePath, .free .cacheDir]⟩
      else if env.mallocCachePath = false then
        ⟨none, fs, [.malloc .cacheDir, .stat cacheDir, .free .cacheDir]⟩
      else
        ⟨some (cachePathOf home vertSrc fragSrc), fs,
          [.malloc .cacheDir, .stat cacheDir, .malloc .cachePath, .free .cacheDir]⟩

/-- One `fread(&word, 4, 1, file)`: the word and the rest of the stream when four bytes
are left, a failed read otherwise. -/
def freadWord (stream : List Byte) : Option (Nat × List Byte) :=
  if 4 ≤ stream.length then some (decodeLE (stream.take 4), stream.drop 4) else none

/-- The header test of `read`: both words are read and `length` is at least 1. -/
def readHeader (content : List Byte) : Option (Nat × Int × List Byte) :=
  match freadWord content with
  | none => none
  | some (binaryFormat, afterFormat) =>
    match freadWord afterFormat with
    | none => none
    | some (word, afterLength) =>
      if toInt32 word < 1 then none else some (binaryFormat, toInt32 word, afterLength)

/-- The function `GlShaderCache::read`; an absent source is a null pointer. -/
def read (env : Env) (fs : FileSystem) (vertSrc fragSrc : Option CStr) : Outcome Nat :=
  match vertSrc, fragSrc with
  | some vert, some frag =>
    let located := getCachePath env fs vert frag
    match located.result with
    | none => ⟨0, located.fs, located.trace⟩
    | some cachePath =>
      match located.fs.files cachePath with
      | none => ⟨0, located.fs, located.trace ++ [.free .cachePath]⟩
      | some content =>
        match readHeader content with
        | none =>
          ⟨0, located.fs,
            located.trace ++ [.fopen cachePath, .fclose cachePath, .free .cachePath]⟩
        | some (binaryFormat, length, payload) =>
          if env.mallocBinaryData = false then
            ⟨0, located.fs,
              located.trace ++ [.fopen cachePath, .fclose cachePath, .free .cachePath]⟩
          else
            let binaryData := payload.take length.toNat
            let bytesRead := binaryData.length
            if bytesRead ≠ length.toNat then
              ⟨0, located.fs,
                located.trace ++ [.fopen cachePath, .malloc .binaryData, .fclose cachePath,
                  .free .binaryData, .free .cachePath]⟩
            else
              let progObj := env.driver.createProgram
              if progObj = 0 then
                ⟨0, located.fs,
                  located.trace ++ [.fopen cachePath, .malloc .binaryData, .fclose cachePath,
                    .glCreateProgram, .free .binaryData, .free .cachePath]⟩
              else
                let linked := env.driver.linkStatus progObj binaryFormat binaryData length
                if linked = 0 then
                  ⟨0, located.fs,
                    located.trace ++ [.fopen cachePath, .malloc .binaryData,
                      .fclose cachePath, .glCreateProgram,
                      .glProgramBinary progObj binaryFormat binaryData length,
                      .free .binaryData, .glGetProgramiv progObj, .glDeleteProgram progObj,
                      .free .cachePath]⟩
                else
                  ⟨progObj, located.fs,
                    located.trace ++ [.fopen cachePath, .malloc .binaryData,
                      .fclose cachePath, .glCreateProgram,
                      .glProgramBinary progObj binaryFormat binaryData length,
                      .free .binaryData, .glGetProgramiv progObj, .free .cachePath]⟩
  | _, _ => ⟨0, fs, []⟩

/-- The bytes that `write` leaves in the cache file: what reached the file of the tag, of
the length field and of the first `length` bytes of the buffer. -/
def writtenContent (env : Env) (binary : ProgramBinary) : List Byte :=
  (encode32 binary.binaryFormat).take env.fwriteFormat
    ++ (encodeInt32 binary.length).take env.fwriteLength
    ++ (binary.binary.take binary.length.toNat).take env.fwritePayload

/-- The value returned by `fwrite(binaryData, 1, length, file)`: the number of payload
bytes written. -/
def payloadWritten (env : Env) (binary : ProgramBinary) : Nat :=
  min env.fwritePayload binary.length.toNat

/-- The function `GlShaderCache::write`; an absent source is a null pointer. -/
def write (env : Env) (fs : FileSystem) (programId : Nat) (vertSrc fragSrc : Option CStr) :
    Outcome Bool :=
  if programId = 0 then ⟨false, fs, []⟩
  else
    match vertSrc, fragSrc with
    | some vert, some frag =>
      let located := getCachePath env fs vert frag
      match located.result with
      | none => ⟨false, located.fs, located.trace⟩
      | some cachePath =>
        let numFormats := env.driver.numProgramBinaryFormats
        if 1 > numFormats then
          ⟨false, located.fs, located.trace ++ [.glGetIntegerv, .free .cachePath]⟩
        else
          let binaryLength := env.driver.programBinaryLength programId
          if 1 > binaryLength then
            ⟨false, located.fs,
              located.trace ++ [.glGetIntegerv, .glGetProgramiv programId, .free .cachePath]⟩
          else if env.mallocBinaryData = false then
            ⟨false, located.fs,
              located.trace ++ [.glGetIntegerv, .glGetProgramiv programId, .free .cachePath]⟩
          else
            let binary := env.driver.getProgramBinary programId binaryLength
            if 1 > binary.length then
              ⟨false, located.fs,
                located.trace ++ [.glGetIntegerv, .glGetProgramiv programId,
                  .malloc .binaryData, .glGetProgramBinary programId binaryLength,
                  .free .binaryData, .free .cachePath]⟩
            else if env.fopenWrite = false then
              ⟨false, located.fs,
                located.trace ++ [.glGetIntegerv, .glGetProgramiv programId,
                  .malloc .binaryData, .glGetProgramBinary programId binaryLength,
                  .free .binaryData, .free .cachePath]⟩
            else
              let written := payloadWritten env binary
              let success := decide (written = binary.length.toNat)
              ⟨success, located.fs.store cachePath (writtenContent env binary),
                located.trace ++ [.glGetIntegerv, .glGetProgramiv programId,
                  .malloc .binaryData, .glGetProgramBinary programId binaryLength,
                  .fopen cachePath, .fclose cachePath, .free .binaryData, .free .cachePath]⟩
    | _, _ => ⟨false, fs, []⟩

/-! ## The stored record, as the specification lays it out -/

/-- The format tag of a stored record: its first four bytes. -/
def recordTag (content : List Byte) : Nat := decodeLE (content.take 4)

/-- The payload length of a stored record: its second four bytes, read as signed. -/
def recordLength (content : List Byte) : Int :=
  toInt32 (decodeLE ((content.drop 4).take 4))

/-- The payload of a stored record: `recordLength` bytes after the eight header bytes. -/
def recordPayload (content : List Byte) : List Byte :=
  (content.drop 8).take (recordLength content).toNat

/-! ## Resource discipline of a trace -/

/-- Replays a trace against the set of live buffers and open files; `none` when a buffer
is allocated while live, freed while not live, or a file is closed while not open. -/
def track : List Event → List Buffer × List Path → Option (List Buffer × List Path)
  | [], live => some live
  | .malloc b :: rest, (bufs, files) =>
    if b ∈ bufs then none else track rest (b :: bufs, files)
  | .free b :: rest, (bufs, files) =>
    if b ∈ bufs then track rest (bufs.erase b, files) else none
  | .fopen p :: rest, (bufs, files) =>
    if p ∈ files then none else track rest (bufs, p :: files)
  | .fclose p :: rest, (bufs, files) =>
    if p ∈ files then track rest (bufs, files.erase p) else none
  | _ :: rest, live => track rest live

/-- Every buffer allocated in the trace is freed exactly once after its allocation, every
file opened is closed exactly once after its opening, and nothing else is freed or
closed. -/
def releasesEverything (trace : List Event) : Bool :=
  track trace ([], []) == some ([], [])

/-! ## Sample inputs -/

/-- A home directory value. -/
def sampleHome : CStr := ascii "/Users/tvg"

/-- A home directory value of 462 bytes. -/
def longHome : CStr := List.replicate 462 97

/-- The vertex source `"A;"`. -/
def vertA : CStr := ascii "A;"

/-- The fragment source `"B;"`. -/
def fragB : CStr := ascii "B;"

/-- A driver without the program-binary capability. -/
def noBinaryDriver : Driver :=
  ⟨0, fun _ => 0, fun _ _ => ⟨0, 0, []⟩, 0, fun _ _ _ _ => 0⟩

/-- A driver that serializes every program to the four bytes `1 2 3 4` with format tag
`34624`, creates program `3` and links every binary. -/
def workingDriver : Driver :=
  ⟨1, fun _ => 4, fun _ _ => ⟨4, 34624, [1, 2, 3, 4]⟩, 3, fun _ _ _ _ => 1⟩

/-- A driver that announces a binary of four bytes and emits two. -/
def shortEmitDriver : Driver :=
  ⟨1, fun _ => 4, fun _ _ => ⟨2, 34624, [1, 2, 0, 0]⟩, 3, fun _ _ _ _ => 1⟩

/-- A driver that announces a binary of four bytes and emits none. -/
def emptyEmitDriver : Driver :=
  ⟨1, fun _ => 4, fun _ _ => ⟨0, 0, [0, 0, 0, 0]⟩, 3, fun _ _ _ _ => 1⟩

/-- A driver like `workingDriver` whose `glCreateProgram` fails. -/
def noProgramDriver : Driver :=
  ⟨1, fun _ => 4, fun _ _ => ⟨4, 34624, [1, 2, 3, 4]⟩, 0, fun _ _ _ _ => 1⟩

/-- An environment in which every allocation and every file operation succeeds. -/
def okEnv (home : Option CStr) (driver : Driver) : Env :=
  ⟨home, driver, true, true, true, true, true, true, true, 4, 4, 4096⟩

/-- An environment in which the write of the format tag fails and every later write
succeeds. -/
def tagWriteFaultEnv : Env :=
  ⟨some sampleHome, workingDriver, true, true, true, true, true, true, true, 0, 4, 4096⟩

/-- A file system without any cache directory or file: only the platform's cache root
exists. -/
def freshFs : FileSystem :=
  ⟨fun _ => none, fun p => decide (p = ascii "/Users/tvg/Library/Caches")⟩

/-! ## The hash -/

theorem charToU32_of_lt {c : Byte} (h : c.val < 128) : charToU32 c = c.val := by
  simp [charToU32, h]

theorem hashLoop_eq_foldl (text : List Byte) (h : ∀ b ∈ text, 0 < b.val ∧ b.val < 128) (acc : Nat) :
    hashLoop acc text
      = text.foldl (fun acc b => ((acc ^^^ b.val) * 16777619) % 2 ^ 32) acc := by
  induction text generalizing acc with
  | nil => rfl
  | cons b bs ih =>
    have hb := h b (List.mem_cons_self _ _)
    have hne : b.val ≠ 0 := by omega
    simp only [hashLoop, List.foldl_cons, if_neg hne, charToU32_of_lt hb.2]
    exact ih (fun c hc => h c (List.mem_cons_of_mem _ hc)) _

theorem hashString_eq_fnv1a_of_ascii (text : List Byte)
    (h : ∀ b ∈ text, 0 < b.val ∧ b.val < 128) : hashString text = fnv1a text :=
  hashLoop_eq_foldl text h _

theorem hashString_nil : hashString [] = 2166136261 := rfl

-- hex
theorem toDigitsCore_append (fuel n : Nat) (ds : List Char) :
    Nat.toDigitsCore 16 fuel n ds = Nat.toDigitsCore 16 fuel n [] ++ ds := by
  induction fuel generalizing n ds with
  | zero => simp [Nat.toDigitsCore]
  | succ k ih =>
    simp only [Nat.toDigitsCore]
    split
    · simp
    · rw [ih, ih (n / 16) [_]]; simp

theorem toDigitsCore_fuel (fuel n : Nat) (h : n < fuel) :
    Nat.toDigitsCore 16 fuel n [] =
      if n < 16 then [Nat.digitChar n]
      else Nat.toDigitsCore 16 (n / 16 + 1) (n / 16) [] ++ [Nat.digitChar (n % 16)] := by
  induction fuel using Nat.strong_induction_on generalizing n with
  | _ fuel ih =>
    cases fuel with
    | zero => omega
    | succ k =>
      by_cases hn : n < 16
      · have : n / 16 = 0 := Nat.div_eq_of_lt hn
        simp [Nat.toDigitsCore, this, hn, Nat.mod_eq_of_lt hn]
      · have hpos : n / 16 ≠ 0 := by omega
        have h1 : n / 16 < k := by omega
        have e1 := ih k (Nat.lt_succ_self _) _ h1
        have e2 := ih (n / 16 + 1) (by omega) _ (Nat.lt_succ_self _)
        rw [if_neg hn, e2, ← e1]
        show (if n / 16 = 0 then _ else _) = _
        rw [if_neg hpos, toDigitsCore_append]

theorem toDigits_step (n : Nat) :
    Nat.toDigits 16 n =
      if n < 16 then [Nat.digitChar n] else Nat.toDigits 16 (n / 16) ++ [Nat.digitChar (n % 16)] := by
  unfold Nat.toDigits
  exact toDigitsCore_fuel _ _ (Nat.lt_succ_self _)


theorem digitChar_byte (d : Nat) (h : d < 16) :
    (Fin.ofNat (Nat.digitChar d).toNat : Byte) = lowerHexDigit d := by
  interval_cases d <;> decide

theorem hexDigits_zero (k : Nat) : hexDigits k 0 = List.replicate k 48 := by
  induction k with
  | zero => rfl
  | succ k ih =>
    simp only [hexDigits, Nat.zero_div, ih, Nat.zero_mod]
    rw [List.replicate_succ']
    rfl

/-- The digits of `Nat.toDigits 16`, as bytes, padded to width `k`. -/
theorem pad_toDigits (k n : Nat) (h : n < 16 ^ (k + 1)) :
    List.replicate (k + 1 - (Nat.toDigits 16 n).length) (48 : Byte)
        ++ (Nat.toDigits 16 n).map (fun c => (Fin.ofNat c.toNat : Byte))
      = hexDigits (k + 1) n := by
  induction k generalizing n with
  | zero =>
    have hn : n < 16 := by simpa using h
    rw [toDigits_step, if_pos hn]
    simp [hexDigits, digitChar_byte n hn, Nat.mod_eq_of_lt hn]
  | succ k ih =>
    rw [toDigits_step]
    by_cases hn : n < 16
    · rw [if_pos hn]
      simp only [hexDigits, List.length_singleton, List.map_cons, List.map_nil,
        Nat.div_eq_of_lt hn, Nat.zero_div, Nat.zero_mod, Nat.mod_eq_of_lt hn, digitChar_byte n hn]
      have := hexDigits_zero (k + 1)
      simp only [hexDigits, Nat.zero_div, Nat.zero_mod] at this
      rw [this]
      simp
    · rw [if_neg hn]
      have hq : n / 16 < 16 ^ (k + 1) := by
        rw [Nat.div_lt_iff_lt_mul (by norm_num)]
        calc n < 16 ^ (k + 1 + 1) := h
          _ = 16 ^ (k + 1) * 16 := by ring
      have := ih (n / 16) hq
      simp only [List.length_append, List.length_singleton, List.map_append, List.map_cons,
        List.map_nil, digitChar_byte _ (Nat.mod_lt n (by norm_num : 16 > 0))]
      rw [show k + 1 + 1 - ((Nat.toDigits 16 (n / 16)).length + 1)
        = k + 1 - (Nat.toDigits 16 (n / 16)).length by omega]
      rw [← List.append_assoc, this]
      rfl

theorem fmt08x_eq_hexDigits (n : Nat) (h : n < 2 ^ 32) : fmt08x n = hexDigits 8 n := by
  have := pad_toDigits 7 n (by norm_num at h ⊢; exact h)
  simpa [fmt08x] using this

theorem hexDigits_eight (n : Nat) :
    hexDigits 8 n = [lowerHexDigit (n / 16 ^ 7 % 16), lowerHexDigit (n / 16 ^ 6 % 16),
      lowerHexDigit (n / 16 ^ 5 % 16), lowerHexDigit (n / 16 ^ 4 % 16),
      lowerHexDigit (n / 16 ^ 3 % 16), lowerHexDigit (n / 16 ^ 2 % 16),
      lowerHexDigit (n / 16 % 16), lowerHexDigit (n % 16)] := by
  simp [hexDigits, Nat.div_div_eq_div_mul]

example : fmt08x 0xbeef = ascii "0000beef" := by decide

/-! ## Location resolution -/

theorem hashLoop_lt (str : CStr) (hash : Nat) (h : hash < 2 ^ 32) : hashLoop hash str < 2 ^ 32 := by
  induction str generalizing hash with
  | nil => exact h
  | cons c str ih =>
    simp only [hashLoop]
    split
    · exact h
    · exact ih _ (Nat.mod_lt _ (by norm_num))

theorem hashString_lt (str : CStr) : hashString str < 2 ^ 32 :=
  hashLoop_lt str _ (by norm_num)

theorem combinedHash_lt (vertSrc fragSrc : CStr) : combinedHash vertSrc fragSrc < 2 ^ 32 :=
  Nat.xor_lt_two_pow (hashString_lt _) (Nat.mod_lt _ (by norm_num))

theorem cstr_of_no_nul (s : CStr) (h : ∀ b ∈ s, b ≠ 0) : cstr s = s := by
  unfold cstr
  rw [List.takeWhile_eq_self_iff]
  intro b hb
  have := h b hb
  simp only [bne_iff_ne, ne_eq]
  intro hv
  exact this (Fin.ext hv)

theorem hexDigits_length (k n : Nat) : (hexDigits k n).length = k := by
  induction k generalizing n with
  | zero => rfl
  | succ k ih => simp [hexDigits, ih]

theorem cachePathOf_short (home vertSrc fragSrc : CStr) (hnul : ∀ b ∈ home, b ≠ 0)
    (hlen : home.length ≤ 461) :
    cachePathOf home vertSrc fragSrc
      = home ++ ascii "/Library/Caches/thorvg/shaders/shader_"
          ++ hexDigits 8 (combinedHash vertSrc fragSrc) ++ ascii ".bin" := by
  have h1 : (ascii "/Library/Caches/thorvg/shaders").length = 30 := by decide
  have h2 : (ascii "/shader_").length = 8 := by decide
  have h3 : (ascii ".bin").length = 4 := by decide
  have h4 : ascii "/Library/Caches/thorvg/shaders/shader_"
      = ascii "/Library/Caches/thorvg/shaders" ++ ascii "/shader_" := by decide
  unfold cachePathOf cacheDirOf snprintf512
  rw [cstr_of_no_nul home hnul, fmt08x_eq_hexDigits _ (combinedHash_lt _ _), h4]
  have e1 : List.take 511 (home ++ ascii "/Library/Caches/thorvg/shaders")
      = home ++ ascii "/Library/Caches/thorvg/shaders" :=
    List.take_of_length_le (by simp [h1]; omega)
  rw [e1, List.take_of_length_le (by simp [h1, h2, h3, hexDigits_length]; omega)]
  simp [List.append_assoc]

theorem cachePathOf_length_le (home vertSrc fragSrc : CStr) :
    (cachePathOf home vertSrc fragSrc).length ≤ 511 := by
  simp [cachePathOf, snprintf512]

theorem getCachePath_result (env : Env) (fs : FileSystem) (vertSrc fragSrc : CStr) :
    (getCachePath env fs vertSrc fragSrc).result =
      match env.home with
      | none => none
      | some home =>
        if env.mallocCacheDir = true ∧ env.mallocCachePath = true
            ∧ (fs.statFails (cacheDirOf home) = true → env.mallocThorvgDir = true)
        then some (cachePathOf home vertSrc fragSrc) else none := by
  unfold getCachePath
  cases env.home with
  | none => rfl
  | some home =>
    by_cases h1 : env.mallocCacheDir = true <;> by_cases h2 : env.mallocCachePath = true
      <;> by_cases h3 : env.mallocThorvgDir = true
      <;> by_cases h4 : fs.statFails (cacheDirOf home) = true <;> simp [h1, h2, h3, h4]

theorem getCachePath_files (env : Env) (fs : FileSystem) (vertSrc fragSrc : CStr) :
    (getCachePath env fs vertSrc fragSrc).fs.files = fs.files := by
  unfold getCachePath
  cases env.home with
  | none => rfl
  | some home =>
    by_cases h1 : env.mallocCacheDir = true <;> by_cases h2 : env.mallocCachePath = true
      <;> by_cases h3 : env.mallocThorvgDir = true
      <;> by_cases h4 : fs.statFails (cacheDirOf home) = true
      <;> by_cases h5 : env.mkdirThorvg = true <;> by_cases h6 : env.mkdirShaders = true
      <;> simp [h1, h2, h3, h4, h5, h6, FileSystem.mkdir]

theorem getCachePath_dirs (env : Env) (fs : FileSystem) (vertSrc fragSrc : CStr) (p : Path)
    (h : (getCachePath env fs vertSrc fragSrc).fs.dirs p ≠ fs.dirs p) :
    ∃ home, env.home = some home ∧ fs.statFails (cacheDirOf home) = true ∧
      (p = thorvgDirOf home ∨ p = cacheDirOf home) ∧
      (getCachePath env fs vertSrc fragSrc).fs.dirs p = true := by
  unfold getCachePath at h ⊢
  cases hh : env.home with
  | none => simp [hh] at h
  | some home =>
    refine ⟨home, rfl, ?_⟩
    simp only [hh] at h ⊢
    by_cases h1 : env.mallocCacheDir = true <;> by_cases h2 : env.mallocCachePath = true
      <;> by_cases h3 : env.mallocThorvgDir = true
      <;> by_cases h4 : fs.statFails (cacheDirOf home) = true
      <;> by_cases h5 : env.mkdirThorvg = true <;> by_cases h6 : env.mkdirShaders = true
      <;> simp [h1, h2, h3, h4, h5, h6, FileSystem.mkdir] at h ⊢
      <;> by_cases e1 : p = cacheDirOf home <;> by_cases e2 : p = thorvgDirOf home
      <;> simp_all

theorem getCachePath_fs_of_stat (env : Env) (fs : FileSystem) (vertSrc fragSrc : CStr)
    (h : ∀ home, env.home = some home → fs.statFails (cacheDirOf home) = false) :
    (getCachePath env fs vertSrc fragSrc).fs = fs := by
  unfold getCachePath
  cases hh : env.home with
  | none => rfl
  | some home =>
    have := h home hh
    by_cases h1 : env.mallocCacheDir = true <;> by_cases h2 : env.mallocCachePath = true
      <;> simp [h1, h2, this]

theorem getCachePath_none (env : Env) (fs : FileSystem) (vertSrc fragSrc : CStr)
    (h : env.home = none) : getCachePath env fs vertSrc fragSrc = ⟨none, fs, []⟩ := by
  simp [getCachePath, h]

theorem getCachePath_releases (env : Env) (fs : FileSystem) (vertSrc fragSrc : CStr) :
    ((getCachePath env fs vertSrc fragSrc).result = none →
      ∀ rest live, track ((getCachePath env fs vertSrc fragSrc).trace ++ rest) ([], live)
        = track rest ([], live)) ∧
    (∀ p, (getCachePath env fs vertSrc fragSrc).result = some p →
      ∀ rest live, track ((getCachePath env fs vertSrc fragSrc).trace ++ rest) ([], live)
        = track rest ([.cachePath], live)) := by
  unfold getCachePath
  cases env.home with
  | none => simp
  | some home =>
    by_cases h1 : env.mallocCacheDir = true <;> by_cases h2 : env.mallocCachePath = true
      <;> by_cases h3 : env.mallocThorvgDir = true
      <;> by_cases h4 : fs.statFails (cacheDirOf home) = true
      <;> simp [h1, h2, h3, h4, track]

/-! ## Lookup -/

theorem readHeader_eq (content : List Byte) :
    readHeader content =
      if 8 ≤ content.length ∧ 1 ≤ recordLength content then
        some (recordTag content, recordLength content, content.drop 8)
      else none := by
  unfold readHeader freadWord recordLength recordTag
  by_cases h4 : 4 ≤ content.length
  · by_cases h8 : 8 ≤ content.length
    · have h44 : 4 ≤ content.length - 4 := by omega
      by_cases hl : 1 ≤ toInt32 (decodeLE (List.take 4 (List.drop 4 content)))
      · simp [h4, h8, h44, hl, not_lt.mpr hl]
      · simp [h4, h8, h44, hl, not_le.mp hl]
    · have h44 : ¬ 4 ≤ content.length - 4 := by omega
      simp [h4, h8, h44]
  · have h8 : ¬ 8 ≤ content.length := by omega
    simp [h4, h8]

/-- The outcome of `read` once the path is resolved and the file found, by cases on the
stored record. -/
theorem read_file_cases (env : Env) (fs : FileSystem) (vert frag : CStr) (cachePath : Path)
    (content : List Byte)
    (hres : (getCachePath env fs vert frag).result = some cachePath)
    (hfile : fs.files cachePath = some content) :
    (¬ (8 ≤ content.length ∧ 1 ≤ recordLength content
          ∧ (recordLength content).toNat ≤ content.length - 8
          ∧ env.mallocBinaryData = true ∧ env.driver.createProgram ≠ 0) →
        (read env fs (some vert) (some frag)).result = 0) ∧
    ((8 ≤ content.length ∧ 1 ≤ recordLength content
          ∧ (recordLength content).toNat ≤ content.length - 8
          ∧ env.mallocBinaryData = true ∧ env.driver.createProgram ≠ 0) →
        Event.glProgramBinary env.driver.createProgram (recordTag content)
            (recordPayload content) (recordLength content)
          ∈ (read env fs (some vert) (some frag)).trace ∧
        (env.driver.linkStatus env.driver.createProgram (recordTag content)
            (recordPayload content) (recordLength content) = 0 →
          (read env fs (some vert) (some frag)).result = 0 ∧
          Event.glDeleteProgram env.driver.createProgram
            ∈ (read env fs (some vert) (some frag)).trace) ∧
        (env.driver.linkStatus env.driver.createProgram (recordTag content)
            (recordPayload content) (recordLength content) ≠ 0 →
          (read env fs (some vert) (some frag)).result = env.driver.createProgram)) := by
  have hfiles := getCachePath_files env fs vert frag
  have hfile2 : (getCachePath env fs vert frag).fs.files cachePath = some content := by
    rw [hfiles, hfile]
  simp only [read, hres, hfile2, readHeader_eq]
  by_cases hhead : 8 ≤ content.length ∧ 1 ≤ recordLength content
  · simp only [if_pos hhead]
    by_cases hm : env.mallocBinaryData = true
    · by_cases hlen : (recordLength content).toNat ≤ content.length - 8
      · by_cases hp : env.driver.createProgram = 0
        · simp [hm, hlen, hp]
        · by_cases hl : env.driver.linkStatus env.driver.createProgram (recordTag content)
              (recordPayload content) (recordLength content) = 0
          · have hl2 := hl
            simp only [recordPayload] at hl2
            simp [hm, hlen, hp, hhead, hl, hl2, recordPayload]
          · have hl2 := hl
            simp only [recordPayload] at hl2
            simp [hm, hlen, hp, hhead, hl, hl2, recordPayload]
      · have : ¬ (recordLength content).toNat ≤ content.length - 8 := hlen
        simp [hm, hlen, hhead]
    · simp [hm]
  · simp only [if_neg hhead]
    constructor
    · intro _; trivial
    · intro h; exact absurd ⟨h.1, h.2.1⟩ hhead

/-- Claim C4: with both sources present, `read` returns a non-zero handle exactly when
the path is resolved, a file is stored there, the file holds the eight header bytes with a
signed payload length of at least 1 and at least that many payload bytes, the buffer is
allocated, a program object is created and the driver reports link success; and when all
of this holds but the link fails, `read` returns 0 and deletes the program object. -/
theorem read_hit_iff (env : Env) (fs : FileSystem) (vert frag : CStr) :
    ((read env fs (some vert) (some frag)).result ≠ 0 ↔
      ∃ cachePath content,
        (getCachePath env fs vert frag).result = some cachePath ∧
        fs.files cachePath = some content ∧
        8 ≤ content.length ∧ 1 ≤ recordLength content ∧
        (recordLength content).toNat ≤ content.length - 8 ∧
        env.mallocBinaryData = true ∧ env.driver.createProgram ≠ 0 ∧
        env.driver.linkStatus env.driver.createProgram (recordTag content)
          (recordPayload content) (recordLength content) ≠ 0) ∧
    (∀ cachePath content,
        (getCachePath env fs vert frag).result = some cachePath →
        fs.files cachePath = some content →
        8 ≤ content.length → 1 ≤ recordLength content →
        (recordLength content).toNat ≤ content.length - 8 →
        env.mallocBinaryData = true → env.driver.createProgram ≠ 0 →
        env.driver.linkStatus env.driver.createProgram (recordTag content)
          (recordPayload content) (recordLength content) = 0 →
        (read env fs (some vert) (some frag)).result = 0 ∧
          Event.glDeleteProgram env.driver.createProgram
            ∈ (read env fs (some vert) (some frag)).trace) := by
  refine ⟨⟨fun hne => ?_, ?_⟩, ?_⟩
  · cases hres : (getCachePath env fs vert frag).result with
    | none => exact absurd (by simp [read, hres]) hne
    | some cachePath =>
      cases hfile : fs.files cachePath with
      | none =>
        have hfiles := getCachePath_files env fs vert frag
        exact absurd (by simp [read, hres, hfiles, hfile]) hne
      | some content =>
        have hc := read_file_cases env fs vert frag cachePath content hres hfile
        by_cases hcond : 8 ≤ content.length ∧ 1 ≤ recordLength content
            ∧ (recordLength content).toNat ≤ content.length - 8
            ∧ env.mallocBinaryData = true ∧ env.driver.createProgram ≠ 0
        · by_cases hl : env.driver.linkStatus env.driver.createProgram (recordTag content)
              (recordPayload content) (recordLength content) = 0
          · exact absurd ((hc.2 hcond).2.1 hl).1 hne
          · exact ⟨cachePath, content, rfl, hfile, hcond.1, hcond.2.1, hcond.2.2.1,
              hcond.2.2.2.1, hcond.2.2.2.2, hl⟩
        · exact absurd (hc.1 hcond) hne
  · rintro ⟨cachePath, content, hres, hfile, h8, h1, hlen, hm, hp, hl⟩
    have hc := read_file_cases env fs vert frag cachePath content hres hfile
    rw [(hc.2 ⟨h8, h1, hlen, hm, hp⟩).2.2 hl]
    exact hp
  · intro cachePath content hres hfile h8 h1 hlen hm hp hl
    have hc := read_file_cases env fs vert frag cachePath content hres hfile
    exact (hc.2 ⟨h8, h1, hlen, hm, hp⟩).2.1 hl

theorem read_fs (env : Env) (fs : FileSystem) (vert frag : CStr) :
    (read env fs (some vert) (some frag)).fs = (getCachePath env fs vert frag).fs := by
  simp only [read]
  cases (getCachePath env fs vert frag).result with
  | none => rfl
  | some cachePath =>
    simp only []
    cases (getCachePath env fs vert frag).fs.files cachePath with
    | none => rfl
    | some content =>
      simp only []
      cases readHeader content with
      | none => rfl
      | some header =>
        obtain ⟨binaryFormat, length, payload⟩ := header
        simp only []
        split_ifs <;> rfl

/-- Claim C8, amended: when no file is stored at the resolved path, `read` returns 0 and
leaves every file as it was; the file system is unchanged when something exists at the
shaders directory path, and otherwise the only directories that can have appeared are the
`thorvg` and the `shaders` directory, created by the location resolution. -/
theorem read_miss_on_absence (env : Env) (fs : FileSystem) (vert frag : CStr)
    (habsent : ∀ p, (getCachePath env fs vert frag).result = some p → fs.files p = none) :
    (read env fs (some vert) (some frag)).result = 0 ∧
    (read env fs (some vert) (some frag)).fs.files = fs.files ∧
    ((∀ home, env.home = some home → fs.statFails (cacheDirOf home) = false) →
      (read env fs (some vert) (some frag)).fs = fs) ∧
    (∀ p, (read env fs (some vert) (some frag)).fs.dirs p ≠ fs.dirs p →
      ∃ home, env.home = some home ∧ fs.statFails (cacheDirOf home) = true ∧
        (p = thorvgDirOf home ∨ p = cacheDirOf home) ∧
        (read env fs (some vert) (some frag)).fs.dirs p = true) := by
  refine ⟨?_, ?_, ?_, ?_⟩
  · have hfiles := getCachePath_files env fs vert frag
    cases hres : (getCachePath env fs vert frag).result with
    | none => simp [read, hres]
    | some cachePath => simp [read, hres, hfiles, habsent cachePath hres]
  · rw [read_fs, getCachePath_files]
  · intro h
    rw [read_fs, getCachePath_fs_of_stat env fs vert frag h]
  · intro p hp
    rw [read_fs] at hp ⊢
    exact getCachePath_dirs env fs vert frag p hp

theorem write_fs_of_rejected (env : Env) (fs : FileSystem) (programId : Nat) (vert frag : CStr)
    (h : env.driver.numProgramBinaryFormats < 1) :
    (write env fs programId (some vert) (some frag)).result = false ∧
    ((write env fs programId (some vert) (some frag)).fs = fs ∨
     (write env fs programId (some vert) (some frag)).fs = (getCachePath env fs vert frag).fs) := by
  unfold write
  by_cases hp : programId = 0
  · simp [hp]
  · simp only [if_neg hp]
    cases (getCachePath env fs vert frag).result with
    | none => simp
    | some cachePath => simp [h]

/-- Claim C7, amended: a call of `write` rejected at validation returns `false` and
leaves every file as it was.  Rejected for a zero handle or an absent source, it leaves
the whole file system as it was.  Rejected by the driver capability check, it has already
resolved the location: the file system is unchanged when something exists at the shaders
directory path, and otherwise the only directories that can have appeared are the `thorvg`
and the `shaders` directory. -/
theorem write_rejected_at_validation (env : Env) (fs : FileSystem) (programId : Nat)
    (vertSrc fragSrc : Option CStr)
    (h : programId = 0 ∨ vertSrc = none ∨ fragSrc = none
      ∨ env.driver.numProgramBinaryFormats < 1) :
    (write env fs programId vertSrc fragSrc).result = false ∧
    (write env fs programId vertSrc fragSrc).fs.files = fs.files ∧
    ((programId = 0 ∨ vertSrc = none ∨ fragSrc = none) →
      (write env fs programId vertSrc fragSrc).fs = fs) ∧
    ((∀ home, env.home = some home → fs.statFails (cacheDirOf home) = false) →
      (write env fs programId vertSrc fragSrc).fs = fs) ∧
    (∀ p, (write env fs programId vertSrc fragSrc).fs.dirs p ≠ fs.dirs p →
      ∃ home, env.home = some home ∧ fs.statFails (cacheDirOf home) = true ∧
        (p = thorvgDirOf home ∨ p = cacheDirOf home) ∧
        (write env fs programId vertSrc fragSrc).fs.dirs p = true) := by
  have hearly : (programId = 0 ∨ vertSrc = none ∨ fragSrc = none) →
      write env fs programId vertSrc fragSrc = ⟨false, fs, []⟩ := by
    intro he
    unfold write
    by_cases hp : programId = 0
    · simp [hp]
    · rcases he with he | he | he
      · exact absurd he hp
      · subst he; simp [hp]
      · subst he; cases vertSrc <;> simp [hp]
  by_cases he : programId = 0 ∨ vertSrc = none ∨ fragSrc = none
  · rw [hearly he]
    exact ⟨rfl, rfl, fun _ => rfl, fun _ => rfl, fun p hp => absurd rfl hp⟩
  · have hnum : env.driver.numProgramBinaryFormats < 1 := by
      rcases h with h | h | h | h
      · exact absurd (Or.inl h) he
      · exact absurd (Or.inr (Or.inl h)) he
      · exact absurd (Or.inr (Or.inr h)) he
      · exact h
    cases vertSrc with
    | none => exact absurd (Or.inr (Or.inl rfl)) he
    | some vert =>
      cases fragSrc with
      | none => exact absurd (Or.inr (Or.inr rfl)) he
      | some frag =>
        obtain ⟨hres, hfs⟩ := write_fs_of_rejected env fs programId vert frag hnum
        refine ⟨hres, ?_, fun h' => absurd h' he, ?_, ?_⟩
        · rcases hfs with hfs | hfs
          · rw [hfs]
          · rw [hfs, getCachePath_files]
        · intro hstat
          rcases hfs with hfs | hfs
          · exact hfs
          · rw [hfs, getCachePath_fs_of_stat env fs vert frag hstat]
        · intro p hp
          rcases hfs with hfs | hfs
          · rw [hfs] at hp; exact absurd rfl hp
          · rw [hfs] at hp ⊢
            exact getCachePath_dirs env fs vert frag p hp

/-! ## Store, release of resources, round trip -/

theorem read_releases (env : Env) (fs : FileSystem) (vertSrc fragSrc : Option CStr) :
    releasesEverything (read env fs vertSrc fragSrc).trace = true := by
  unfold releasesEverything
  cases vertSrc with
  | none => simp [read, track]
  | some vert =>
    cases fragSrc with
    | none => simp [read, track]
    | some frag =>
      have hrel := getCachePath_releases env fs vert frag
      simp only [read]
      cases hres : (getCachePath env fs vert frag).result with
      | none =>
        have := hrel.1 hres [] []
        simp only [List.append_nil] at this
        simp [this, track]
      | some cachePath =>
        have hr := hrel.2 cachePath hres
        simp only []
        cases (getCachePath env fs vert frag).fs.files cachePath with
        | none => simp [hr, track]
        | some content =>
          simp only []
          cases readHeader content with
          | none => simp [hr, track]
          | some header =>
            obtain ⟨binaryFormat, length, payload⟩ := header
            simp only []
            split_ifs <;> simp [hr, track]

theorem write_releases (env : Env) (fs : FileSystem) (programId : Nat)
    (vertSrc fragSrc : Option CStr) :
    releasesEverything (write env fs programId vertSrc fragSrc).trace = true := by
  unfold releasesEverything
  unfold write
  by_cases hp : programId = 0
  · simp [hp, track]
  · simp only [if_neg hp]
    cases vertSrc with
    | none => simp [track]
    | some vert =>
      cases fragSrc with
      | none => simp [track]
      | some frag =>
        have hrel := getCachePath_releases env fs vert frag
        simp only []
        cases hres : (getCachePath env fs vert frag).result with
        | none =>
          have := hrel.1 hres [] []
          simp only [List.append_nil] at this
          simp [this, track]
        | some cachePath =>
          have hr := hrel.2 cachePath hres
          simp only []
          split_ifs <;> simp [hr, track]

/-- Claim C5: for a call of `write` that passes validation and serialization, the
result is `true` exactly when the file was opened for writing and the number of payload
bytes written equals the emitted length. -/
theorem write_success_iff (env : Env) (fs : FileSystem) (programId : Nat) (vert frag : CStr)
    (cachePath : Path) (hprog : programId ≠ 0)
    (hres : (getCachePath env fs vert frag).result = some cachePath)
    (hnum : 1 ≤ env.driver.numProgramBinaryFormats)
    (hlen : 1 ≤ env.driver.programBinaryLength programId)
    (hmalloc : env.mallocBinaryData = true)
    (hemit : 1 ≤ (env.driver.getProgramBinary programId
      (env.driver.programBinaryLength programId)).length) :
    (write env fs programId (some vert) (some frag)).result = true ↔
      env.fopenWrite = true ∧
      payloadWritten env (env.driver.getProgramBinary programId
          (env.driver.programBinaryLength programId))
        = (env.driver.getProgramBinary programId
          (env.driver.programBinaryLength programId)).length.toNat := by
  simp only [write, if_neg hprog, hres, gt_iff_lt, not_lt.mpr hnum, not_lt.mpr hlen, hmalloc,
    not_lt.mpr hemit, if_false]
  by_cases ho : env.fopenWrite = true
  · simp [ho]
  · simp [ho]

/-- Claim C6, amended: `write` returns `false` whenever the emitted length is below 1;
that is the only test made on the emitted length. -/
theorem write_false_of_nonpositive_length (env : Env) (fs : FileSystem) (programId : Nat)
    (vertSrc fragSrc : Option CStr)
    (hemit : (env.driver.getProgramBinary programId
      (env.driver.programBinaryLength programId)).length < 1) :
    (write env fs programId vertSrc fragSrc).result = false := by
  unfold write
  by_cases hp : programId = 0
  · simp [hp]
  · simp only [if_neg hp]
    cases vertSrc with
    | none => simp
    | some vert =>
      cases fragSrc with
      | none => simp
      | some frag =>
        simp only []
        cases (getCachePath env fs vert frag).result with
        | none => simp
        | some cachePath =>
          simp only []
          split_ifs <;> simp_all

/-- Claim C9: when `HOME` is absent, `read` returns 0 and `write` returns `false` for
every handle and every pair of sources, present or not; neither changes the file system,
and neither makes any allocator, file or driver call. -/
theorem disabled_cache (env : Env) (fs : FileSystem) (programId : Nat)
    (vertSrc fragSrc : Option CStr) (hhome : env.home = none) :
    (read env fs vertSrc fragSrc).result = 0 ∧ (read env fs vertSrc fragSrc).fs = fs ∧
    (read env fs vertSrc fragSrc).trace = [] ∧
    (write env fs programId vertSrc fragSrc).result = false ∧
    (write env fs programId vertSrc fragSrc).fs = fs ∧
    (write env fs programId vertSrc fragSrc).trace = [] := by
  cases vertSrc <;> cases fragSrc <;> by_cases hp : programId = 0 <;>
    simp [read, write, getCachePath_none, hhome, hp]

theorem decodeLE_encode32 (n : Nat) (h : n < 2 ^ 32) : decodeLE (encode32 n) = n := by
  simp only [encode32, decodeLE, Fin.ofNat, Fin.val_mk]
  norm_num at h
  omega

theorem toInt32_encodeInt32 (i : Int) (h1 : 0 ≤ i) (h2 : i < 2 ^ 31) :
    toInt32 (decodeLE (encodeInt32 i)) = i := by
  have hi : (i % 4294967296).toNat < 2 ^ 32 := by norm_num at h2 ⊢; omega
  unfold encodeInt32
  rw [decodeLE_encode32 _ hi]
  unfold toInt32
  norm_num at h2
  split <;> omega

theorem encode32_length (n : Nat) : (encode32 n).length = 4 := rfl

theorem record_of_written (env : Env) (binary : ProgramBinary)
    (hformat : 4 ≤ env.fwriteFormat) (hlength : 4 ≤ env.fwriteLength)
    (hpayload : payloadWritten env binary = binary.length.toNat)
    (htag : binary.binaryFormat < 2 ^ 32)
    (hpos : 1 ≤ binary.length) (hlen : binary.length < 2 ^ 31)
    (hfill : binary.length.toNat ≤ binary.binary.length) :
    writtenContent env binary
        = encode32 binary.binaryFormat ++ encodeInt32 binary.length
          ++ binary.binary.take binary.length.toNat ∧
    8 ≤ (writtenContent env binary).length ∧
    recordTag (writtenContent env binary) = binary.binaryFormat ∧
    recordLength (writtenContent env binary) = binary.length ∧
    recordPayload (writtenContent env binary) = binary.binary.take binary.length.toNat ∧
    (recordLength (writtenContent env binary)).toNat
      ≤ (writtenContent env binary).length - 8 := by
  have hw : writtenContent env binary
        = encode32 binary.binaryFormat ++ (encodeInt32 binary.length
          ++ binary.binary.take binary.length.toNat) := by
    unfold writtenContent
    unfold payloadWritten at hpayload
    have h3 : binary.length.toNat ≤ env.fwritePayload := by omega
    rw [List.take_of_length_le (by rw [encode32_length]; exact hformat),
      List.take_of_length_le (by unfold encodeInt32; rw [encode32_length]; exact hlength),
      List.take_of_length_le (by simp; omega), List.append_assoc]
  have hrl : recordLength (writtenContent env binary) = binary.length := by
    rw [hw]
    unfold recordLength
    rw [List.drop_append_of_le_length (by simp [encode32_length]),
      show List.drop 4 (encode32 binary.binaryFormat) = [] from rfl, List.nil_append,
      List.take_append_of_le_length (by simp [encodeInt32, encode32_length]),
      show List.take 4 (encodeInt32 binary.length) = encodeInt32 binary.length from rfl]
    exact toInt32_encodeInt32 _ (by omega) hlen
  have hdrop : List.drop 8 (writtenContent env binary)
      = binary.binary.take binary.length.toNat := by
    rw [hw, ← List.append_assoc]
    exact List.drop_left' (by simp [encodeInt32, encode32_length])
  refine ⟨by rw [hw, List.append_assoc], ?_, ?_, hrl, ?_, ?_⟩
  · rw [hw]; simp [encodeInt32, encode32_length]; omega
  · rw [hw]
    unfold recordTag
    rw [List.take_append_of_le_length (by simp [encode32_length]),
      show List.take 4 (encode32 binary.binaryFormat) = encode32 binary.binaryFormat from rfl]
    exact decodeLE_encode32 _ htag
  · unfold recordPayload
    rw [hrl, hdrop, List.take_take, min_self]
  · rw [hrl, hw]
    simp [encodeInt32, encode32_length]
    omega

theorem write_true_cases (env : Env) (fs : FileSystem) (programId : Nat) (vert frag : CStr)
    (hwrite : (write env fs programId (some vert) (some frag)).result = true) :
    ∃ cachePath, (getCachePath env fs vert frag).result = some cachePath ∧
      1 ≤ (env.driver.getProgramBinary programId
        (env.driver.programBinaryLength programId)).length ∧
      payloadWritten env (env.driver.getProgramBinary programId
          (env.driver.programBinaryLength programId))
        = (env.driver.getProgramBinary programId
          (env.driver.programBinaryLength programId)).length.toNat ∧
      (write env fs programId (some vert) (some frag)).fs
        = (getCachePath env fs vert frag).fs.store cachePath
            (writtenContent env (env.driver.getProgramBinary programId
              (env.driver.programBinaryLength programId))) := by
  unfold write at hwrite ⊢
  by_cases hp : programId = 0
  · simp [hp] at hwrite
  · simp only [if_neg hp] at hwrite ⊢
    cases hres : (getCachePath env fs vert frag).result with
    | none => simp [hres] at hwrite
    | some cachePath =>
      refine ⟨cachePath, rfl, ?_⟩
      simp only [hres] at hwrite ⊢
      split_ifs at hwrite ⊢ with h1 h2 h3 h4 h5
      all_goals first
        | (simp at hwrite; done)
        | (simp only [decide_eq_true_eq] at hwrite; exact ⟨by omega, hwrite, rfl⟩)

/-- The path resolved by `getCachePath` does not depend on the file system or on which
allocations were asked for, only on `HOME` and the sources. -/
theorem getCachePath_same_path (env env2 : Env) (fs fs2 : FileSystem) (vert frag : CStr)
    (cachePath : Path) (hres : (getCachePath env fs vert frag).result = some cachePath)
    (hhome : env2.home = env.home) (hc : env2.mallocCacheDir = true)
    (ht : env2.mallocThorvgDir = true) (hp : env2.mallocCachePath = true) :
    (getCachePath env2 fs2 vert frag).result = some cachePath := by
  rw [getCachePath_result] at hres ⊢
  rw [hhome]
  cases hh : env.home with
  | none => simp [hh] at hres
  | some home =>
    simp only [hh] at hres ⊢
    split_ifs at hres
    simp only [hc, hp, ht, implies_true, and_self, if_true]
    exact hres

/-- Claim C3, amended: if `write` returns `true`, both header fields reached the file
whole, the tag and the length fit their 32-bit types and the buffer holds the emitted
bytes, then the file is the four bytes of the tag, the four bytes of the length and the
payload; and a following `read` with the same `HOME`, whose allocations and program
creation succeed, resolves the same path, parses the same tag and length and hands the
driver exactly this tag, payload and length. -/
theorem write_read_round_trip (env env2 : Env) (fs : FileSystem) (programId : Nat)
    (vert frag : CStr) (binary : ProgramBinary)
    (hbinary : binary = env.driver.getProgramBinary programId
      (env.driver.programBinaryLength programId))
    (hwrite : (write env fs programId (some vert) (some frag)).result = true)
    (hformat : 4 ≤ env.fwriteFormat) (hlength : 4 ≤ env.fwriteLength)
    (htag : binary.binaryFormat < 2 ^ 32) (hlen : binary.length < 2 ^ 31)
    (hfill : binary.length.toNat ≤ binary.binary.length)
    (hhome : env2.home = env.home) (hc : env2.mallocCacheDir = true)
    (ht : env2.mallocThorvgDir = true) (hp : env2.mallocCachePath = true)
    (hb : env2.mallocBinaryData = true) (hprog : env2.driver.createProgram ≠ 0) :
    ∃ cachePath,
      (getCachePath env fs vert frag).result = some cachePath ∧
      (getCachePath env2 (write env fs programId (some vert) (some frag)).fs vert frag).result
        = some cachePath ∧
      (write env fs programId (some vert) (some frag)).fs.files cachePath
        = some (encode32 binary.binaryFormat ++ encodeInt32 binary.length
            ++ binary.binary.take binary.length.toNat) ∧
      recordTag (encode32 binary.binaryFormat ++ encodeInt32 binary.length
            ++ binary.binary.take binary.length.toNat) = binary.binaryFormat ∧
      recordLength (encode32 binary.binaryFormat ++ encodeInt32 binary.length
            ++ binary.binary.take binary.length.toNat) = binary.length ∧
      Event.glProgramBinary env2.driver.createProgram binary.binaryFormat
          (binary.binary.take binary.length.toNat) binary.length
        ∈ (read env2 (write env fs programId (some vert) (some frag)).fs
            (some vert) (some frag)).trace := by
  obtain ⟨cachePath, hres, hpos, hpay, hfs⟩ := write_true_cases env fs programId vert frag hwrite
  rw [← hbinary] at hpos hpay hfs
  obtain ⟨hw, h8, hrt, hrl, hrp, hle⟩ :=
    record_of_written env binary hformat hlength hpay htag hpos hlen hfill
  have hres2 := getCachePath_same_path env env2 fs
    (write env fs programId (some vert) (some frag)).fs vert frag cachePath hres hhome hc ht hp
  have hfile : (write env fs programId (some vert) (some frag)).fs.files cachePath
      = some (writtenContent env binary) := by
    rw [hfs]; simp [FileSystem.store]
  have hc := (read_file_cases env2 (write env fs programId (some vert) (some frag)).fs
    vert frag cachePath (writtenContent env binary) hres2 hfile).2
      ⟨h8, by rw [hrl]; exact hpos, hle, hb, hprog⟩
  rw [hrt, hrl, hrp] at hc
  rw [hw] at hfile hrt hrl
  exact ⟨cachePath, hres, hres2, hfile, hrt, hrl, hc.1⟩

/-! ## Concrete runs -/

/-- Claim C1: on the one-byte text `0x80` the code does not return the FNV-1a hash: the
byte is sign-extended to `0xFFFFFF80` before the XOR, so `hashString` yields `83079839`
where FNV-1a yields `2232128415`. -/
theorem hashString_high_byte :
    hashString [128] = 83079839 ∧ fnv1a [128] = 2232128415 ∧
      hashString [128] ≠ fnv1a [128] := by decide

/-- Claim C2, amended: for a home directory value of at most 461 bytes (without NUL), when
the allocations of `getCachePath` succeed, the result is exactly the home value followed
by `/Library/Caches/thorvg/shaders/shader_`, the eight lowercase hexadecimal digits of
`hashString v XOR ((hashString f << 1) mod 2^32)` and `.bin`; it depends on nothing but the
home value and the two sources. -/
theorem getCachePath_path (env : Env) (fs : FileSystem) (home vertSrc fragSrc : CStr)
    (hhome : env.home = some home) (hnul : ∀ b ∈ home, b ≠ 0) (hlen : home.length ≤ 461)
    (hc : env.mallocCacheDir = true) (ht : env.mallocThorvgDir = true)
    (hp : env.mallocCachePath = true) :
    (getCachePath env fs vertSrc fragSrc).result
      = some (home ++ ascii "/Library/Caches/thorvg/shaders/shader_"
          ++ hexDigits 8 (hashString vertSrc ^^^ ((hashString fragSrc <<< 1) % 2 ^ 32))
          ++ ascii ".bin") := by
  rw [getCachePath_result, hhome]
  simp only [hc, hp, ht, implies_true, and_self, if_true]
  rw [cachePathOf_short home vertSrc fragSrc hnul hlen]
  rfl

/-- The path theorem applied to the home `/Users/tvg` and the sources `A;` and `B;`. -/
theorem getCachePath_path_witness :
    (okEnv (some sampleHome) noBinaryDriver).home = some sampleHome ∧
    sampleHome.length ≤ 461 ∧
    (getCachePath (okEnv (some sampleHome) noBinaryDriver) freshFs vertA fragB).result
      = some (sampleHome ++ ascii "/Library/Caches/thorvg/shaders/shader_"
          ++ hexDigits 8 (hashString vertA ^^^ ((hashString fragB <<< 1) % 2 ^ 32))
          ++ ascii ".bin") :=
  ⟨rfl, by simp [sampleHome, ascii],
    getCachePath_path (okEnv (some sampleHome) noBinaryDriver) freshFs sampleHome vertA fragB
      rfl (by simp [sampleHome, ascii]; decide) (by simp [sampleHome, ascii]) rfl rfl rfl⟩

theorem getCachePath_ne_of_long_home (env : Env) (fs : FileSystem) (home vertSrc fragSrc : CStr)
    (n : Nat) (hlen : 461 < home.length) :
    (getCachePath env fs vertSrc fragSrc).result
      ≠ some (home ++ ascii "/Library/Caches/thorvg/shaders/shader_" ++ hexDigits 8 n
          ++ ascii ".bin") := by
  intro h
  rw [getCachePath_result] at h
  cases hh : env.home with
  | none => simp [hh] at h
  | some home2 =>
    simp only [hh] at h
    split_ifs at h
    have hle := cachePathOf_length_le home2 vertSrc fragSrc
    rw [Option.some.inj h, List.length_append, List.length_append, List.length_append,
      hexDigits_length,
      show (ascii "/Library/Caches/thorvg/shaders/shader_").length = 38 from rfl,
      show (ascii ".bin").length = 4 from rfl] at hle
    omega

/-- With a home directory value of 462 bytes the composed text has 512 bytes and
`snprintf` keeps 511 of them: the result is not the full composed path. -/
theorem getCachePath_long_home :
    (getCachePath (okEnv (some longHome) noBinaryDriver) freshFs vertA fragB).result
      ≠ some (longHome ++ ascii "/Library/Caches/thorvg/shaders/shader_"
          ++ hexDigits 8 (hashString vertA ^^^ ((hashString fragB <<< 1) % 2 ^ 32))
          ++ ascii ".bin") :=
  getCachePath_ne_of_long_home _ _ _ _ _ _ (by rw [longHome, List.length_replicate]; omega)

/-- A stored record of four payload bytes is a hit: the conditions of the hit theorem are
satisfiable. -/
theorem read_hit_witness :
    (read (okEnv (some sampleHome) workingDriver)
      (freshFs.store (cachePathOf sampleHome vertA fragB) [64, 135, 0, 0, 4, 0, 0, 0, 1, 2, 3, 4])
      (some vertA) (some fragB)).result ≠ 0 :=
  (read_hit_iff (okEnv (some sampleHome) workingDriver)
    (freshFs.store (cachePathOf sampleHome vertA fragB) [64, 135, 0, 0, 4, 0, 0, 0, 1, 2, 3, 4])
    vertA fragB).1.2
    ⟨cachePathOf sampleHome vertA fragB, [64, 135, 0, 0, 4, 0, 0, 0, 1, 2, 3, 4],
      by decide, by decide, by decide, by decide, by decide, rfl, by decide, by decide⟩

/-- The success theorem applied to a driver that emits four bytes. -/
theorem write_success_iff_witness :
    (write (okEnv (some sampleHome) workingDriver) freshFs 7 (some vertA) (some fragB)).result
        = true ↔
      (okEnv (some sampleHome) workingDriver).fopenWrite = true ∧
      payloadWritten (okEnv (some sampleHome) workingDriver) (workingDriver.getProgramBinary 7 4)
        = (workingDriver.getProgramBinary 7 4).length.toNat :=
  write_success_iff (okEnv (some sampleHome) workingDriver) freshFs 7 vertA fragB
    (cachePathOf sampleHome vertA fragB) (by decide) (by decide) (by decide) (by decide) rfl
    (by decide)

/-- The driver announces four bytes and emits two: `write` stores the two bytes and
returns `true`. -/
theorem write_accepts_shorter_emitted_length :
    shortEmitDriver.programBinaryLength 7 = 4 ∧
    (shortEmitDriver.getProgramBinary 7 (shortEmitDriver.programBinaryLength 7)).length = 2 ∧
    (write (okEnv (some sampleHome) shortEmitDriver) freshFs 7 (some vertA) (some fragB)).result
      = true := by decide

/-- The amended length theorem applied to a driver that emits no byte. -/
theorem write_false_of_nonpositive_length_witness :
    (emptyEmitDriver.getProgramBinary 7 (emptyEmitDriver.programBinaryLength 7)).length < 1 ∧
    (write (okEnv (some sampleHome) emptyEmitDriver) freshFs 7 (some vertA) (some fragB)).result
      = false :=
  ⟨by decide,
    write_false_of_nonpositive_length (okEnv (some sampleHome) emptyEmitDriver) freshFs 7
      (some vertA) (some fragB) (by decide)⟩

/-- The driver reports no binary format and `write` returns `false`, yet the cache
directories, absent before the call, exist after it. -/
theorem write_rejected_creates_directories :
    noBinaryDriver.numProgramBinaryFormats = 0 ∧
    (write (okEnv (some sampleHome) noBinaryDriver) freshFs 7 (some vertA) (some fragB)).result
      = false ∧
    freshFs.dirs (ascii "/Users/tvg/Library/Caches/thorvg/shaders") = false ∧
    (write (okEnv (some sampleHome) noBinaryDriver) freshFs 7 (some vertA) (some fragB)).fs.dirs
      (ascii "/Users/tvg/Library/Caches/thorvg/shaders") = true ∧
    (write (okEnv (some sampleHome) noBinaryDriver) freshFs 7 (some vertA) (some fragB)).fs
      ≠ freshFs := by
  refine ⟨by decide, by decide, by decide, by decide, ?_⟩
  intro h
  have h2 := congrArg (fun s => s.dirs (ascii "/Users/tvg/Library/Caches/thorvg/shaders")) h
  revert h2
  decide

/-- The validation theorem applied to a driver without binary formats. -/
theorem write_rejected_at_validation_witness :
    (okEnv (some sampleHome) noBinaryDriver).driver.numProgramBinaryFormats < 1 ∧
    (write (okEnv (some sampleHome) noBinaryDriver) freshFs 7 (some vertA) (some fragB)).result
      = false ∧
    (write (okEnv (some sampleHome) noBinaryDriver) freshFs 7 (some vertA) (some fragB)).fs.files
      = freshFs.files :=
  ⟨by decide,
    (write_rejected_at_validation (okEnv (some sampleHome) noBinaryDriver) freshFs 7
      (some vertA) (some fragB) (Or.inr (Or.inr (Or.inr (by decide))))).1,
    (write_rejected_at_validation (okEnv (some sampleHome) noBinaryDriver) freshFs 7
      (some vertA) (some fragB) (Or.inr (Or.inr (Or.inr (by decide))))).2.1⟩

/-- No file is stored at the resolved path and `read` returns 0, yet the shaders
directory, absent before the call, exists after it. -/
theorem read_miss_creates_directories :
    (getCachePath (okEnv (some sampleHome) workingDriver) freshFs vertA fragB).result
      = some (ascii "/Users/tvg/Library/Caches/thorvg/shaders/shader_be6f5ee1.bin") ∧
    freshFs.files (ascii "/Users/tvg/Library/Caches/thorvg/shaders/shader_be6f5ee1.bin") = none ∧
    (read (okEnv (some sampleHome) workingDriver) freshFs (some vertA) (some fragB)).result = 0 ∧
    freshFs.dirs (ascii "/Users/tvg/Library/Caches/thorvg/shaders") = false ∧
    (read (okEnv (some sampleHome) workingDriver) freshFs (some vertA) (some fragB)).fs.dirs
      (ascii "/Users/tvg/Library/Caches/thorvg/shaders") = true ∧
    (read (okEnv (some sampleHome) workingDriver) freshFs (some vertA) (some fragB)).fs
      ≠ freshFs := by
  refine ⟨by decide, by decide, by decide, by decide, by decide, ?_⟩
  intro h
  have h2 := congrArg (fun s => s.dirs (ascii "/Users/tvg/Library/Caches/thorvg/shaders")) h
  revert h2
  decide

/-- The miss theorem applied to a file system without any cache file. -/
theorem read_miss_on_absence_witness :
    (read (okEnv (some sampleHome) workingDriver) freshFs (some vertA) (some fragB)).result = 0 ∧
    (read (okEnv (some sampleHome) workingDriver) freshFs (some vertA) (some fragB)).fs.files
      = freshFs.files :=
  ⟨(read_miss_on_absence (okEnv (some sampleHome) workingDriver) freshFs vertA fragB
      (fun _ _ => rfl)).1,
    (read_miss_on_absence (okEnv (some sampleHome) workingDriver) freshFs vertA fragB
      (fun _ _ => rfl)).2.1⟩

/-- The disabled-cache theorem applied to an environment without `HOME`. -/
theorem disabled_cache_witness :
    (okEnv none workingDriver).home = none ∧
    (read (okEnv none workingDriver) freshFs (some vertA) (some fragB)).result = 0 ∧
    (read (okEnv none workingDriver) freshFs (some vertA) (some fragB)).fs = freshFs ∧
    (read (okEnv none workingDriver) freshFs (some vertA) (some fragB)).trace = [] ∧
    (write (okEnv none workingDriver) freshFs 7 (some vertA) (some fragB)).result = false ∧
    (write (okEnv none workingDriver) freshFs 7 (some vertA) (some fragB)).fs = freshFs ∧
    (write (okEnv none workingDriver) freshFs 7 (some vertA) (some fragB)).trace = [] :=
  ⟨rfl, disabled_cache (okEnv none workingDriver) freshFs 7 (some vertA) (some fragB) rfl⟩

/-- Two runs in which `write` returns `true` and the following `read` hands nothing to
the driver: in the first the write of the format tag fails, unnoticed, and the file starts
with the length field; in the second the file is complete and `glCreateProgram` fails in
`read`. -/
theorem round_trip_counterexample :
    ((write tagWriteFaultEnv freshFs 7 (some vertA) (some fragB)).result = true ∧
      (write tagWriteFaultEnv freshFs 7 (some vertA) (some fragB)).fs.files
          (ascii "/Users/tvg/Library/Caches/thorvg/shaders/shader_be6f5ee1.bin")
        = some [4, 0, 0, 0, 1, 2, 3, 4] ∧
      (read (okEnv (some sampleHome) workingDriver)
          (write tagWriteFaultEnv freshFs 7 (some vertA) (some fragB)).fs
          (some vertA) (some fragB)).trace.filter Event.isDriverCall = []) ∧
    ((write (okEnv (some sampleHome) workingDriver) freshFs 7 (some vertA) (some fragB)).result
        = true ∧
      (write (okEnv (some sampleHome) workingDriver) freshFs 7 (some vertA) (some fragB)).fs.files
          (ascii "/Users/tvg/Library/Caches/thorvg/shaders/shader_be6f5ee1.bin")
        = some [64, 135, 0, 0, 4, 0, 0, 0, 1, 2, 3, 4] ∧
      (read (okEnv (some sampleHome) noProgramDriver)
          (write (okEnv (some sampleHome) workingDriver) freshFs 7 (some vertA) (some fragB)).fs
          (some vertA) (some fragB)).trace.filter Event.isDriverCall
        = [Event.glCreateProgram]) := by
  decide

/-- The round trip theorem applied to a driver that emits four bytes. -/
theorem write_read_round_trip_witness :
    (write (okEnv (some sampleHome) workingDriver) freshFs 7 (some vertA) (some fragB)).result
      = true ∧
    (write (okEnv (some sampleHome) workingDriver) freshFs 7 (some vertA) (some fragB)).fs.files
        (ascii "/Users/tvg/Library/Caches/thorvg/shaders/shader_be6f5ee1.bin")
      = some (encode32 34624 ++ encodeInt32 4 ++ [1, 2, 3, 4]) ∧
    Event.glProgramBinary 3 34624 [1, 2, 3, 4] 4
      ∈ (read (okEnv (some sampleHome) workingDriver)
          (write (okEnv (some sampleHome) workingDriver) freshFs 7 (some vertA)
            (some fragB)).fs (some vertA) (some fragB)).trace := by
  refine ⟨by decide, ?_⟩
  obtain ⟨cachePath, hpath, _, hfile, _, _, hload⟩ :=
    write_read_round_trip (okEnv (some sampleHome) workingDriver)
      (okEnv (some sampleHome) workingDriver) freshFs 7 vertA fragB ⟨4, 34624, [1, 2, 3, 4]⟩ rfl
      (by decide) (by decide) (by decide) (by decide) (by decide) (by decide) rfl rfl rfl rfl
      rfl (by decide)
  have hconcrete : (getCachePath (okEnv (some sampleHome) workingDriver) freshFs vertA
      fragB).result
        = some (ascii "/Users/tvg/Library/Caches/thorvg/shaders/shader_be6f5ee1.bin") := by
    decide
  rw [Option.some.inj (hpath.symm.trans hconcrete)] at hfile
  exact ⟨hfile, hload⟩

/-- Claim C10: in every execution of `read` and of `write`, whatever the outcome of the
allocations, of the file operations and of the driver calls, every buffer allocated during
the call (those of `getCachePath` included) is freed exactly once and every file opened is
closed exactly once before the call returns. -/
theorem releases_on_every_exit (env : Env) (fs : FileSystem) (programId : Nat)
    (vertSrc fragSrc : Option CStr) :
    releasesEverything (read env fs vertSrc fragSrc).trace = true ∧
    releasesEverything (write env fs programId vertSrc fragSrc).trace = true :=
  ⟨read_releases env fs vertSrc fragSrc, write_releases env fs programId vertSrc fragSrc⟩

end GlShaderCache
